import Mathlib

/-!
Verification of the device-connectivity core of the diabetes monitoring client.

The definitions below are shallow embeddings of the TypeScript source:
* `handleHeartRateValueChanged` and `handleGlucoseValueChanged` embed the
  notification decoders of `src/unnamed/part_002` (class `BluetoothService`).
* `handleRRInterval` embeds the variability estimator of `src/App.tsx`.
* `Svc` and `step` embed the pending-request registry and the disconnect logic
  of `src/services/bluetoothService.ts` as a labelled transition system over
  the single-threaded JavaScript event loop.
* `connect` embeds the connection sequence of `src/services/bluetoothService.ts`.

A `DataView` is modelled as a `List ℕ` of bytes; a read past the end of the
view, which raises a `RangeError` in JavaScript, is modelled by the dedicated
`thrown` result. JavaScript numbers are modelled as `ℚ` (every value the code
computes here is exactly representable in a 64-bit float, so nothing is lost).
-/

namespace Diabetes

/-! ## Definitions: heart-rate decoder (src/unnamed/part_002, lines 124-159) -/

/-- Result of one run of the heart-rate notification handler:
`noValue` models the early `if (!value) return`, `thrown` models an uncaught
`RangeError` from an out-of-bounds `DataView` read, and `measured bpm ivs`
models a completed run that forwarded `bpm` to `onHeartRateChange` and each
element of `ivs` (in order) to `onRRInterval`. -/
inductive HRResult where
  | noValue
  | thrown
  | measured (bpm : ℕ) (intervals : List ℚ)
deriving DecidableEq

/-- The `while (offset + 1 < value.byteLength)` loop of
`handleHeartRateValueChanged` (src/unnamed/part_002, lines 151-157), expressed
as recursion over the suffix of the buffer starting at the loop's offset:
while at least two bytes remain, read a little-endian 16-bit word `rr` and
emit `rr / 1024 * 1000` milliseconds. -/
def rrIntervals : List ℕ → List ℚ
  | lo :: hi :: rest => ((lo + 256 * hi : ℕ) : ℚ) / 1024 * 1000 :: rrIntervals rest
  | _ => []

/-- Lines 144-158 of src/unnamed/part_002: after the bpm field has been read
(parsing resuming at `offset`), if flags bit 4 is set, skip 2 bytes when flags
bit 3 (energy expended) is set, then emit the trailing RR intervals; if bit 4
is clear, no intervals are emitted. -/
def parseAfterBpm (bytes : List ℕ) (flags bpm offset : ℕ) : HRResult :=
  if flags &&& 16 ≠ 0 then
    let offset := if flags &&& 8 ≠ 0 then offset + 2 else offset
    .measured bpm (rrIntervals (bytes.drop offset))
  else
    .measured bpm []

/-- Embedding of `handleHeartRateValueChanged` of src/unnamed/part_002
(lines 124-159). `value = none` models `target.value` being absent. Byte 0 is
the flags field; flags bit 0 selects a little-endian 16-bit bpm at offset 1
(advance 2 bytes) versus an 8-bit bpm at offset 1 (advance 1 byte). The
`getUint8` and `getUint16` reads throw when out of bounds, modelled by
`thrown`. The same flags and bpm logic appears verbatim in
src/services/bluetoothService.ts lines 241-254 (which parses no intervals). -/
def handleHeartRateValueChanged (value : Option (List ℕ)) : HRResult :=
  match value with
  | none => .noValue
  | some bytes =>
    match bytes[0]? with
    | none => .thrown
    | some flags =>
      if flags &&& 1 ≠ 0 then
        match bytes[1]?, bytes[2]? with
        | some lo, some hi => parseAfterBpm bytes flags (lo + 256 * hi) 3
        | _, _ => .thrown
      else
        match bytes[1]? with
        | some b => parseAfterBpm bytes flags b 2
        | none => .thrown

/-! ## Definitions: glucose decoder (src/unnamed/part_002, lines 161-183) -/

/-- Result of one run of the glucose notification handler:
`noValue` models `if (!value) return`; `thrown` models the uncaught
`RangeError` of `value.getUint8(0)` on an empty view (that read sits outside
the `try` block); `ignored` models a run that forwarded nothing (the
`getUint8(10)` read threw and was caught, or the byte was 0); `forwarded g`
models `onGlucoseChange(g)` being invoked. -/
inductive GlucoseResult where
  | noValue
  | thrown
  | ignored
  | forwarded (g : ℕ)
deriving DecidableEq

/-- Embedding of `handleGlucoseValueChanged` of src/unnamed/part_002
(lines 161-183), with the `onGlucoseChange` observer installed (as wired up in
src/App.tsx): read flags at byte 0 (outside the `try`), then inside the `try`
read the concentration as the single unsigned byte at offset 10 and forward
it only when it is positive. -/
def handleGlucoseValueChanged (value : Option (List ℕ)) : GlucoseResult :=
  match value with
  | none => .noValue
  | some bytes =>
    match bytes[0]? with
    | none => .thrown
    | some _flags =>
      match bytes[10]? with
      | none => .ignored
      | some g => if 0 < g then .forwarded g else .ignored

/-! ## Definitions: spec-side decoder formulas (spec §4.1), for refinement -/

/-- Modelled from the spec, §4.1, for comparison with the code: the bpm field.
"Bit 0 selects the beats-per-minute width: if set, bpm is a little-endian
16-bit unsigned integer at offset 1; if clear, bpm is an 8-bit unsigned
integer at offset 1." -/
def specBpm (flags : ℕ) (bytes : List ℕ) : ℕ :=
  if flags &&& 1 ≠ 0 then bytes.getD 1 0 + 256 * bytes.getD 2 0 else bytes.getD 1 0

/-- Modelled from the spec, §4.1, for comparison with the code: the offset at
which interval parsing starts: after the flags byte and the bpm field (1 or 2
bytes), plus 2 skipped bytes when flags bit 3 ("energy expended present") is
set. -/
def rrStart (flags : ℕ) : ℕ :=
  (if flags &&& 1 ≠ 0 then 3 else 2) + (if flags &&& 8 ≠ 0 then 2 else 0)

/-- Modelled from the spec, §4.1, for comparison with the code: "zero or more
trailing little-endian 16-bit unsigned values, each ... converted to
milliseconds via value / 1024 * 1000 and parsing continues while at least 2
bytes remain in the buffer" — the `k`-th word sits at `start + 2k`, and there
are `(length - start) / 2` complete words. -/
def specIntervals (bytes : List ℕ) (start : ℕ) : List ℚ :=
  (List.range ((bytes.length - start) / 2)).map fun k =>
    ((bytes.getD (start + 2 * k) 0 + 256 * bytes.getD (start + 2 * k + 1) 0 : ℕ) : ℚ)
      / 1024 * 1000

/-! ## Definitions: variability estimator (src/App.tsx, lines 128-145) -/

/-- Embedding of `Math.round(Math.sqrt(q))` of src/App.tsx lines 140-141,
computed exactly on rationals (`Math.round x` is `⌊x + 1/2⌋`). The lemma
`jsRoundSqrt_eq_round_sqrt` proves this integer algorithm equal to
`round (Real.sqrt q)` for every `0 ≤ q`, so nothing of the source's
real-valued computation is lost. -/
def jsRoundSqrt (q : ℚ) : ℕ := (Nat.sqrt ⌊4 * q⌋₊ + 1) / 2

/-- The `for(let i=1; i<newBuff.length; i++) { const diff = newBuff[i] -
newBuff[i-1]; sumSquares += diff * diff; }` accumulation of src/App.tsx
lines 135-139, as recursion over adjacent pairs. -/
def sumSquares : List ℚ → ℚ
  | a :: b :: rest => (b - a) ^ 2 + sumSquares (b :: rest)
  | _ => 0

/-- The sliding-window update of src/App.tsx lines 130-131:
`newBuff = [...prev, rrMs]; if (newBuff.length > 20) newBuff.shift()`. -/
def slideWindow (buf : List ℚ) (rrMs : ℚ) : List ℚ :=
  let newBuff := buf ++ [rrMs]
  if newBuff.length > 20 then newBuff.tail else newBuff

/-- Embedding of `handleRRInterval` of src/App.tsx (lines 128-145): push
`rrMs` into the bounded window, and when the window holds more than 2 samples
emit `Math.round(Math.sqrt(sumSquares / (newBuff.length - 1)))` as the HRV
statistic (the `setMetrics` call); otherwise emit nothing. Returns the new
window together with the emitted statistic. -/
def handleRRInterval (buf : List ℚ) (rrMs : ℚ) : List ℚ × Option ℕ :=
  let newBuff := slideWindow buf rrMs
  if newBuff.length > 2 then
    (newBuff, some (jsRoundSqrt (sumSquares newBuff / ((newBuff.length : ℚ) - 1))))
  else
    (newBuff, none)

/-! ## Definitions: pending-request registry and disconnect logic
(src/services/bluetoothService.ts) -/

/-- Settlement of a promise handed out by `requestHeartRate`:
`resolved hr` is `resolve(hr)` inside the resolver (line 212); `timedOut` is
the rejection with "Timeout: Watch did not send data." (line 207);
`notConnectedErr` is the immediate rejection with "Device not connected"
(line 198). `connectionLost` is the connection-lost failure the specification
describes; it is included so that claims about it can be stated — the code
never produces it. -/
inductive Outcome where
  | resolved (hr : ℕ)
  | timedOut
  | notConnectedErr
  | connectionLost
deriving DecidableEq

/-- State of one `BluetoothService` instance together with its JavaScript
runtime context: `connected` is `device.gatt.connected`; `now` is the wall
clock in milliseconds; `pending` is `this.pendingHeartRateRequests` (each
resolver closure identified by a unique id, in insertion order); `timers` is
the set of live `setTimeout` timers `(resolver id, fire-at time)`; `log` is
the sequence of promise settlements; `nextId` generates fresh ids. -/
structure Svc where
  connected : Bool
  now : ℕ
  pending : List ℕ
  timers : List (ℕ × ℕ)
  log : List (ℕ × Outcome)
  nextId : ℕ
deriving DecidableEq

/-- A freshly constructed service: no device, no pending requests. -/
def initSvc : Svc := ⟨false, 0, [], [], [], 0⟩

/-- Events processed atomically by the JavaScript event loop:
`connectOk` is a `connect()` call that succeeds; `request` is a
`requestHeartRate()` call; `notify hr` is a decoded heart-rate notification
reaching the dispatch block of `handleHeartRateValueChanged` (lines 261-268);
`fire id` is the runtime firing the `setTimeout` callback of request `id`
(lines 203-208); `userDisconnect` is a `disconnect()` call (lines 184-193);
`peerDisconnect` is the `gattserverdisconnected` event reaching
`handleDisconnection` (lines 219-222); `tick ms` advances the wall clock. -/
inductive Ev where
  | connectOk
  | request
  | notify (hr : ℕ)
  | fire (id : ℕ)
  | userDisconnect
  | peerDisconnect
  | tick (ms : ℕ)
deriving DecidableEq

/-- One atomic event-loop step of src/services/bluetoothService.ts.
`request`: when disconnected, reject immediately with "Device not connected"
(lines 197-199) touching no registry state; when connected, arm a 5000 ms
timer and push the resolver (lines 201-216). `notify hr`: copy the pending
list, clear it, and for each copied resolver clear its timer and resolve it
with `hr` (lines 262-268). `fire id`: a timer callback can only run while its
timer is live and due; it splices its resolver out of the pending list and
rejects with the timeout error (lines 203-208), consuming the timer.
`userDisconnect`/`peerDisconnect`: both only flip the connection flag and run
`onDisconnect`; neither touches `pendingHeartRateRequests` or any timer. -/
def step (s : Svc) : Ev → Svc
  | .connectOk => { s with connected := true }
  | .request =>
      if s.connected then
        { s with pending := s.pending ++ [s.nextId],
                 timers := s.timers ++ [(s.nextId, s.now + 5000)],
                 nextId := s.nextId + 1 }
      else
        { s with log := s.log ++ [(s.nextId, .notConnectedErr)],
                 nextId := s.nextId + 1 }
  | .notify hr =>
      { s with pending := [],
               timers := s.timers.filter fun t => decide (t.1 ∉ s.pending),
               log := s.log ++ s.pending.map fun i => (i, .resolved hr) }
  | .fire id =>
      if ∃ t ∈ s.timers, t.1 = id ∧ t.2 ≤ s.now then
        { s with pending := s.pending.erase id,
                 timers := s.timers.filter fun t => decide (t.1 ≠ id),
                 log := s.log ++ [(id, .timedOut)] }
      else s
  | .userDisconnect => if s.connected then { s with connected := false } else s
  | .peerDisconnect => if s.connected then { s with connected := false } else s
  | .tick ms => { s with now := s.now + ms }

/-- States reachable from a freshly constructed service. -/
inductive Reachable : Svc → Prop where
  | init : Reachable initSvc
  | next (s : Svc) (e : Ev) : Reachable s → Reachable (step s e)

/-- Registry invariant: pending resolver ids are distinct, the live timers
are exactly the pending requests, ids are below the generator, no pending
request has already settled, and no id settles more than once. -/
structure SvcInv (s : Svc) : Prop where
  nodupPending : s.pending.Nodup
  timersFst : s.timers.map Prod.fst = s.pending
  pendingLt : ∀ id ∈ s.pending, id < s.nextId
  logLt : ∀ e ∈ s.log, e.1 < s.nextId
  pendingUnsettled : ∀ id ∈ s.pending, ∀ e ∈ s.log, e.1 ≠ id
  settledOnce : ∀ id, s.log.countP (fun e => e.1 == id) ≤ 1

/-- A connected service with one pending request (id 0, deadline 5000). -/
def svc1 : Svc := step (step initSvc .connectOk) .request

/-- The same service after 5000 ms have elapsed, so the timer is due. -/
def svcDue : Svc := step svc1 (.tick 5000)

/-! ## Definitions: connection sequence (src/services/bluetoothService.ts,
`connect`, lines 121-182) -/

/-- The peripheral chosen in the platform chooser: its display name (absent
for an unnamed device), whether it exposes a GATT interface, and whether
`gatt.connect()` succeeds. -/
structure DeviceEnv where
  name : Option String
  hasGatt : Bool
  gattConnectOk : Bool

/-- Failures `connect()` can surface to its caller. Battery-read and
heart-rate-subscription failures are absent by design: both are swallowed by
inner `try`/`catch` blocks. -/
inductive ConnectFailure where
  | webBluetoothUnsupported
  | requestDeviceFailed
  | noDeviceSelected
  | noGattSupport
  | gattConnectFailed
deriving DecidableEq

/-- Environment of one `connect()` run: platform capability, the outcome of
`requestDevice` (an exception models the user cancelling the chooser), the
outcome of `readBatteryLevel`, and the outcome of
`startHeartRateNotifications`. -/
structure ConnectEnv where
  bluetoothAvailable : Bool
  requestDevice : Except Unit (Option DeviceEnv)
  batteryRead : Except Unit ℕ
  hrSubscribe : Except Unit Unit

/-- Embedding of `connect()` of src/services/bluetoothService.ts
(lines 121-182): check platform capability, request a device, require a GATT
interface, connect the GATT session, then attempt the battery read and the
heart-rate subscription each inside its own `try`/`catch` (lines 160-172,
both outcomes non-fatal), and resolve with `this.device.name ||
"Connected Device"` (line 174). -/
def connect (env : ConnectEnv) : Except ConnectFailure String :=
  if !env.bluetoothAvailable then .error .webBluetoothUnsupported
  else match env.requestDevice with
    | .error _ => .error .requestDeviceFailed
    | .ok none => .error .noDeviceSelected
    | .ok (some dev) =>
      if !dev.hasGatt then .error .noGattSupport
      else if !dev.gattConnectOk then .error .gattConnectFailed
      else
        match env.batteryRead with
        | .error _ =>
          match env.hrSubscribe with
          | .error _ => .ok ((dev.name).getD ("Connected Device"))
          | .ok _ => .ok ((dev.name).getD ("Connected Device"))
        | .ok _ =>
          match env.hrSubscribe with
          | .error _ => .ok ((dev.name).getD ("Connected Device"))
          | .ok _ => .ok ((dev.name).getD ("Connected Device"))

/-- A session whose battery read and heart-rate subscription both fail, on an
unnamed device. -/
def envBestEffort : ConnectEnv :=
  ⟨true, .ok (some ⟨none, true, true⟩), .error (), .error ()⟩

/-! ## Helper lemmas: decoder -/

theorem rrIntervals_eq_specIntervals_aux :
    ∀ (l : List ℕ), rrIntervals l = (List.range (l.length / 2)).map fun k =>
      ((l.getD (2 * k) 0 + 256 * l.getD (2 * k + 1) 0 : ℕ) : ℚ) / 1024 * 1000
  | [] => by simp [rrIntervals]
  | [x] => by simp [rrIntervals]
  | lo :: hi :: rest => by
      have ih := rrIntervals_eq_specIntervals_aux rest
      have hlen : (lo :: hi :: rest).length / 2 = rest.length / 2 + 1 := by
        simp only [List.length_cons]
        omega
      rw [rrIntervals, hlen, List.range_succ_eq_map, List.map_cons, List.map_map]
      congr 1

theorem rrIntervals_drop (bytes : List ℕ) (start : ℕ) :
    rrIntervals (bytes.drop start) = specIntervals bytes start := by
  rw [rrIntervals_eq_specIntervals_aux, specIntervals, List.length_drop]
  apply List.map_congr_left
  intro k _
  have h1 : (bytes.drop start).getD (2 * k) 0 = bytes.getD (start + 2 * k) 0 := by
    simp [List.getD_eq_getElem?_getD, List.getElem?_drop]
  have h2 : (bytes.drop start).getD (2 * k + 1) 0 = bytes.getD (start + 2 * k + 1) 0 := by
    simp [List.getD_eq_getElem?_getD, List.getElem?_drop, Nat.add_assoc]
  rw [h1, h2]

theorem parseAfterBpm_spec (bytes : List ℕ) (flags bpm o : ℕ) :
    parseAfterBpm bytes flags bpm o
      = .measured bpm (if flags &&& 16 ≠ 0
          then specIntervals bytes (o + (if flags &&& 8 ≠ 0 then 2 else 0)) else []) := by
  rw [parseAfterBpm]
  by_cases h16 : flags &&& 16 ≠ 0
  · rw [if_pos h16, if_pos h16]
    by_cases h8 : flags &&& 8 ≠ 0
    · rw [if_pos h8, if_pos h8]
      dsimp only
      rw [rrIntervals_drop]
    · rw [if_neg h8, if_neg h8]
      dsimp only
      rw [rrIntervals_drop]
      norm_num
  · rw [if_neg h16, if_neg h16]

/-! ## Helper lemmas: estimator -/

theorem natFloor_real_sqrt (x : ℝ) (hx : 0 ≤ x) :
    ⌊Real.sqrt x⌋₊ = Nat.sqrt ⌊x⌋₊ := by
  rw [Nat.floor_eq_iff (Real.sqrt_nonneg x)]
  constructor
  · calc ((Nat.sqrt ⌊x⌋₊ : ℕ) : ℝ) ≤ Real.sqrt ((⌊x⌋₊ : ℕ) : ℝ) :=
          Real.nat_sqrt_le_real_sqrt
      _ ≤ Real.sqrt x := Real.sqrt_le_sqrt (Nat.floor_le hx)
  · have h2 : ((⌊x⌋₊ : ℝ) + 1) ≤ ((Nat.sqrt ⌊x⌋₊ : ℝ) + 1) ^ 2 := by
      have := Nat.succ_le_of_lt (Nat.lt_succ_sqrt' ⌊x⌋₊)
      calc ((⌊x⌋₊ : ℝ) + 1) = ((⌊x⌋₊ + 1 : ℕ) : ℝ) := by push_cast; ring
        _ ≤ (((Nat.sqrt ⌊x⌋₊).succ ^ 2 : ℕ) : ℝ) := by exact_mod_cast this
        _ = ((Nat.sqrt ⌊x⌋₊ : ℝ) + 1) ^ 2 := by push_cast [Nat.succ_eq_add_one]; ring
    have h3 : x < ((Nat.sqrt ⌊x⌋₊ : ℝ) + 1) ^ 2 := by
      have h1 := Nat.lt_floor_add_one x
      linarith
    exact (Real.sqrt_lt' (by positivity)).mpr h3

theorem jsRoundSqrt_eq_round_sqrt (q : ℚ) (hq : 0 ≤ q) :
    (jsRoundSqrt q : ℤ) = round (Real.sqrt (q : ℝ)) := by
  have hq' : (0:ℝ) ≤ (q : ℝ) := by exact_mod_cast hq
  have hs : (0:ℝ) ≤ Real.sqrt (q:ℝ) := Real.sqrt_nonneg _
  have hnn : (0:ℝ) ≤ Real.sqrt (q:ℝ) + 1/2 := by linarith
  have hfl : ((⌊Real.sqrt (q:ℝ) + 1/2⌋₊ : ℕ) : ℤ) = ⌊Real.sqrt (q:ℝ) + 1/2⌋ := by
    rw [← Int.floor_toNat, Int.toNat_of_nonneg (Int.floor_nonneg.mpr hnn)]
  rw [round_eq, ← hfl]
  congr 1
  have hhalf : Real.sqrt (q:ℝ) + 1/2 = (2 * Real.sqrt (q:ℝ) + 1) / 2 := by ring
  rw [jsRoundSqrt, hhalf, Nat.floor_div_ofNat, Nat.floor_add_one (by positivity)]
  congr 2
  have h4 : 2 * Real.sqrt (q:ℝ) = Real.sqrt (((4*q : ℚ) : ℚ) : ℝ) := by
    push_cast
    rw [show (4:ℝ) * (q:ℝ) = (2:ℝ)^2 * (q:ℝ) by ring,
      Real.sqrt_mul (by positivity), Real.sqrt_sq (by norm_num)]
  rw [h4, natFloor_real_sqrt _ (by positivity)]
  congr 1
  rw [← Int.floor_toNat, ← Int.floor_toNat, Rat.floor_cast]

theorem sumSquares_nonneg : ∀ l : List ℚ, 0 ≤ sumSquares l
  | [] => le_refl 0
  | [_] => le_refl 0
  | a :: b :: rest => by
      have ih := sumSquares_nonneg (b :: rest)
      rw [sumSquares]
      positivity

theorem sumSquares_eq_finsetSum : ∀ l : List ℚ,
    sumSquares l = ∑ i in Finset.range (l.length - 1),
      (l.getD (i + 1) 0 - l.getD i 0) ^ 2
  | [] => by simp [sumSquares]
  | [a] => by simp [sumSquares]
  | a :: b :: rest => by
      have ih := sumSquares_eq_finsetSum (b :: rest)
      rw [sumSquares, ih]
      rw [show (a :: b :: rest).length - 1 = rest.length + 1 by simp]
      rw [Finset.sum_range_succ']
      rw [show (b :: rest).length - 1 = rest.length by simp]
      rw [add_comm]
      congr 1

/-! ## Helper lemmas: registry transition system -/

theorem step_request_conn (s : Svc) (h : s.connected = true) :
    step s .request = { s with pending := s.pending ++ [s.nextId],
                               timers := s.timers ++ [(s.nextId, s.now + 5000)],
                               nextId := s.nextId + 1 } := by
  simp [step, h]

theorem step_request_disc (s : Svc) (h : s.connected = false) :
    step s .request = { s with log := s.log ++ [(s.nextId, .notConnectedErr)],
                               nextId := s.nextId + 1 } := by
  simp [step, h]

theorem step_notify (s : Svc) (hr : ℕ) :
    step s (.notify hr) = { s with pending := [],
                                   timers := s.timers.filter fun t => decide (t.1 ∉ s.pending),
                                   log := s.log ++ s.pending.map fun i => (i, .resolved hr) } :=
  rfl

theorem step_fire_live (s : Svc) (j : ℕ)
    (h : ∃ t ∈ s.timers, t.1 = j ∧ t.2 ≤ s.now) :
    step s (.fire j) = { s with pending := s.pending.erase j,
                                timers := s.timers.filter fun t => decide (t.1 ≠ j),
                                log := s.log ++ [(j, .timedOut)] } := by
  simp only [step, if_pos h]

theorem step_fire_dead (s : Svc) (j : ℕ)
    (h : ¬ ∃ t ∈ s.timers, t.1 = j ∧ t.2 ≤ s.now) :
    step s (.fire j) = s := by
  simp only [step, if_neg h]

theorem step_userDisconnect (s : Svc) :
    step s .userDisconnect = { s with connected := false } := by
  by_cases h : s.connected = true
  · simp [step, h]
  · simp only [Bool.not_eq_true] at h
    simp [step, h]
    cases s
    simp_all

theorem step_peerDisconnect (s : Svc) :
    step s .peerDisconnect = { s with connected := false } := by
  by_cases h : s.connected = true
  · simp [step, h]
  · simp only [Bool.not_eq_true] at h
    simp [step, h]
    cases s
    simp_all

theorem svcInv_init : SvcInv initSvc := by
  constructor <;> simp [initSvc]

theorem map_fst_filter_ne (l : List (ℕ × ℕ)) (j : ℕ) :
    (l.filter fun t => decide (t.1 ≠ j)).map Prod.fst
      = (l.map Prod.fst).filter fun x => decide (x ≠ j) := by
  induction l with
  | nil => rfl
  | cons a t ih =>
      simp only [List.filter_cons, List.map_cons, decide_not] at ih ⊢
      by_cases h : a.1 = j <;> simp [h, ih]

theorem filter_ne_eq_erase (l : List ℕ) (j : ℕ) (h : l.Nodup) :
    l.filter (fun x => decide (x ≠ j)) = l.erase j := by
  rw [List.Nodup.erase_eq_filter h]
  apply List.filter_congr
  intro x _
  by_cases hx : x = j <;> simp [hx]

theorem svcInv_step (s : Svc) (e : Ev) (h : SvcInv s) : SvcInv (step s e) := by
  obtain ⟨hnd, htf, hplt, hllt, hpu, hso⟩ := h
  cases e with
  | connectOk => exact ⟨hnd, htf, hplt, hllt, hpu, hso⟩
  | tick ms => exact ⟨hnd, htf, hplt, hllt, hpu, hso⟩
  | userDisconnect =>
      rw [step_userDisconnect]
      exact ⟨hnd, htf, hplt, hllt, hpu, hso⟩
  | peerDisconnect =>
      rw [step_peerDisconnect]
      exact ⟨hnd, htf, hplt, hllt, hpu, hso⟩
  | request =>
      by_cases hc : s.connected = true
      · rw [step_request_conn s hc]
        refine ⟨?_, ?_, ?_, ?_, ?_, ?_⟩ <;> dsimp only
        · rw [List.nodup_append]
          refine ⟨hnd, List.nodup_singleton _, ?_⟩
          intro a ha hb
          simp only [List.mem_singleton] at hb
          exact absurd (hplt a ha) (by omega)
        · simp [htf]
        · intro id hid
          rcases List.mem_append.mp hid with h1 | h1
          · exact Nat.lt_succ_of_lt (hplt id h1)
          · simp only [List.mem_singleton] at h1; omega
        · intro e he
          exact Nat.lt_succ_of_lt (hllt e he)
        · intro id hid e he
          rcases List.mem_append.mp hid with h1 | h1
          · exact hpu id h1 e he
          · simp only [List.mem_singleton] at h1
            subst h1
            exact fun hEq => absurd (hllt e he) (by omega)
        · exact hso
      · have hc' : s.connected = false := by simpa using hc
        rw [step_request_disc s hc']
        refine ⟨hnd, htf, ?_, ?_, ?_, ?_⟩ <;> dsimp only
        · intro id hid; exact Nat.lt_succ_of_lt (hplt id hid)
        · intro e he
          rcases List.mem_append.mp he with h1 | h1
          · exact Nat.lt_succ_of_lt (hllt e h1)
          · simp only [List.mem_singleton] at h1; subst h1; omega
        · intro id hid e he
          rcases List.mem_append.mp he with h1 | h1
          · exact hpu id hid e h1
          · have h2 := hplt id hid
            simp only [List.mem_singleton] at h1
            subst h1
            dsimp only
            omega
        · intro id
          rw [List.countP_append]
          by_cases hid : s.nextId = id
          · have h0 : s.log.countP (fun e => e.1 == id) = 0 := by
              rw [List.countP_eq_zero]
              intro e he
              have := hllt e he
              simp only [beq_iff_eq]
              omega
            simp [h0, hid]
          · have h1 : List.countP (fun e => e.1 == id)
                [(s.nextId, Outcome.notConnectedErr)] = 0 := by
              simp [hid]
            rw [h1]
            simpa using hso id
  | notify hr =>
      rw [step_notify]
      refine ⟨List.nodup_nil, ?_, by simp, ?_, by simp, ?_⟩ <;> dsimp only
      · have hnil : (s.timers.filter fun t => decide (t.1 ∉ s.pending)) = [] := by
          rw [List.filter_eq_nil_iff]
          intro t ht
          have : t.1 ∈ s.pending := htf ▸ List.mem_map_of_mem Prod.fst ht
          simp [this]
        rw [hnil]
        rfl
      · intro e he
        rcases List.mem_append.mp he with h1 | h1
        · exact hllt e h1
        · rcases List.mem_map.mp h1 with ⟨i, hi, rfl⟩
          exact hplt i hi
      · intro id
        rw [List.countP_append, List.countP_map]
        have hcomp : ((fun (e : ℕ × Outcome) => e.1 == id) ∘ fun i => (i, Outcome.resolved hr))
            = fun i => i == id := rfl
        rw [hcomp]
        by_cases hid : id ∈ s.pending
        · have h0 : s.log.countP (fun e => e.1 == id) = 0 := by
            rw [List.countP_eq_zero]
            intro e he
            simpa using hpu id hid e he
          rw [h0]
          have hcnt : s.pending.countP (fun i => i == id) = s.pending.count id := rfl
          rw [hcnt]
          simpa using (List.nodup_iff_count_le_one.mp hnd id)
        · have h1 : s.pending.countP (fun i => i == id) = 0 := by
            rw [List.countP_eq_zero]
            intro a ha
            simp only [beq_iff_eq]
            intro hEq
            exact hid (hEq ▸ ha)
          rw [h1]
          simpa using hso id
  | fire j =>
      by_cases hg : ∃ t ∈ s.timers, t.1 = j ∧ t.2 ≤ s.now
      · rw [step_fire_live s j hg]
        have hjp : j ∈ s.pending := by
          obtain ⟨t, ht, h1, _⟩ := hg
          have := htf ▸ List.mem_map_of_mem Prod.fst ht
          rwa [h1] at this
        refine ⟨hnd.erase j, ?_, ?_, ?_, ?_, ?_⟩ <;> dsimp only
        · rw [map_fst_filter_ne, htf, filter_ne_eq_erase _ _ hnd]
        · intro id hid
          exact hplt id (List.mem_of_mem_erase hid)
        · intro e he
          rcases List.mem_append.mp he with h1 | h1
          · exact hllt e h1
          · simp only [List.mem_singleton] at h1
            subst h1
            exact hplt j hjp
        · intro id hid e he
          rcases List.mem_append.mp he with h1 | h1
          · exact hpu id (List.mem_of_mem_erase hid) e h1
          · simp only [List.mem_singleton] at h1
            subst h1
            dsimp only
            intro hEq
            subst hEq
            exact (hnd.not_mem_erase) hid
        · intro id
          rw [List.countP_append]
          by_cases hid : j = id
          · have h0 : s.log.countP (fun e => e.1 == id) = 0 := by
              rw [List.countP_eq_zero]
              intro e he
              simpa using hpu id (hid ▸ hjp) e he
            simp [h0, hid]
          · have h1 : List.countP (fun e => e.1 == id) [(j, Outcome.timedOut)] = 0 := by
              simp [hid]
            rw [h1]
            simpa using hso id
      · rw [step_fire_dead s j hg]
        exact ⟨hnd, htf, hplt, hllt, hpu, hso⟩

theorem reachable_svcInv (s : Svc) (h : Reachable s) : SvcInv s := by
  induction h with
  | init => exact svcInv_init
  | next s e _ ih => exact svcInv_step s e ih

theorem fire_due_log (s : Svc) (id t : ℕ) (ht : (id, t) ∈ s.timers) (hle : t ≤ s.now) :
    (step s (.fire id)).log = s.log ++ [(id, .timedOut)] := by
  rw [step_fire_live s id ⟨(id, t), ht, rfl, hle⟩]

/-! ## Claims -/

/-- Claim C1, counterexample: contrary to "decoding completes without
throwing" and "an empty or unrecognized buffer yields no measurement
extracted", the handler applied to an empty (0-byte) value performs
`value.getUint8(0)` out of bounds and throws a `RangeError`. -/
theorem hr_decode_throws_on_empty :
    handleHeartRateValueChanged (some []) = HRResult.thrown := rfl

/-- Claim C1 (amended): a missing value yields no measurement, and for every
buffer long enough to contain the flags byte and the complete bpm field
(2 bytes when flags bit 0 is clear, 3 when set) decoding completes without
throwing — in particular a truncated interval tail never throws, parsing
stopping at the last complete field; but a buffer shorter than flags + bpm
makes the handler throw a `RangeError` (see the counterexample). -/
theorem hr_decode_total_beyond_bpm :
    (handleHeartRateValueChanged none = HRResult.noValue)
    ∧ ∀ (bytes : List ℕ) (flags : ℕ), bytes[0]? = some flags →
        (if flags &&& 1 ≠ 0 then 3 else 2) ≤ bytes.length →
        ∃ bpm ivs, handleHeartRateValueChanged (some bytes) = .measured bpm ivs := by
  refine ⟨rfl, ?_⟩
  intro bytes flags h0 hlen
  by_cases hb : flags &&& 1 ≠ 0
  · rw [if_pos hb] at hlen
    have h1lt : 1 < bytes.length := by omega
    have h2lt : 2 < bytes.length := by omega
    simp only [handleHeartRateValueChanged, h0, if_pos hb,
      List.getElem?_eq_getElem h1lt, List.getElem?_eq_getElem h2lt]
    by_cases h16 : flags &&& 16 ≠ 0 <;> by_cases h8 : flags &&& 8 ≠ 0 <;>
      simp [parseAfterBpm, h16, h8]
  · rw [if_neg hb] at hlen
    have h1lt : 1 < bytes.length := by omega
    simp only [handleHeartRateValueChanged, h0, if_neg hb,
      List.getElem?_eq_getElem h1lt]
    by_cases h16 : flags &&& 16 ≠ 0 <;> by_cases h8 : flags &&& 8 ≠ 0 <;>
      simp [parseAfterBpm, h16, h8]

/-- Claim C1 witness: flags `0x10` (RR present, 8-bit bpm) with a truncated
one-byte interval tail decodes without throwing. -/
theorem hr_decode_total_beyond_bpm_w :
    ∃ bpm ivs, handleHeartRateValueChanged (some [16, 75, 0]) = .measured bpm ivs :=
  hr_decode_total_beyond_bpm.2 [16, 75, 0] 16 rfl (by decide)

/-- Claim C2, counterexample: with one request pending (service `svc1`),
a user-initiated disconnect leaves the registry non-empty (still `[0]`) and
settles nothing — no request is failed with a connection-lost error, contrary
to "all N are failed immediately ... and the pending-request registry is
empty immediately afterwards". -/
theorem disconnect_ignores_pending_cex :
    (step svc1 .userDisconnect).pending = [0]
    ∧ (step svc1 .userDisconnect).log = [] := by decide

/-- Claim C2 (amended): neither `disconnect()` nor the peer-initiated
`gattserverdisconnected` handler rejects, resolves or removes any pending
on-demand request — registry, timers and settlements are all unchanged — and
a request pending at disconnect is instead rejected with the timeout error
when its own 5-second deadline timer subsequently fires. -/
theorem disconnect_leaves_pending (s : Svc) :
    ((step s .userDisconnect).pending = s.pending
      ∧ (step s .userDisconnect).timers = s.timers
      ∧ (step s .userDisconnect).log = s.log)
    ∧ ((step s .peerDisconnect).pending = s.pending
      ∧ (step s .peerDisconnect).timers = s.timers
      ∧ (step s .peerDisconnect).log = s.log)
    ∧ (∀ id t, (id, t) ∈ s.timers → t ≤ s.now →
        (step (step s .userDisconnect) (.fire id)).log = s.log ++ [(id, .timedOut)]
        ∧ (step (step s .peerDisconnect) (.fire id)).log = s.log ++ [(id, .timedOut)]) := by
  rw [step_userDisconnect, step_peerDisconnect]
  refine ⟨⟨rfl, rfl, rfl⟩, ⟨rfl, rfl, rfl⟩, ?_⟩
  intro id t ht hle
  exact ⟨fire_due_log _ id t ht hle, fire_due_log _ id t ht hle⟩

/-- Claim C2 witness: at the concrete state `svcDue` (one pending request
whose deadline has passed), disconnect leaves the request pending and firing
its timer afterwards rejects it with the timeout error. -/
theorem disconnect_leaves_pending_w :
    ((step svcDue .userDisconnect).pending = svcDue.pending)
    ∧ (step (step svcDue .userDisconnect) (.fire 0)).log
        = svcDue.log ++ [(0, .timedOut)] :=
  ⟨(disconnect_leaves_pending svcDue).1.1,
    ((disconnect_leaves_pending svcDue).2.2 0 5000 (by decide) (by decide)).1⟩

/-- Claim C3: in every reachable service state, (1) no request settles more
than once; (2) every pending request is unsettled and still has its deadline
timer armed (none is left dangling); (3) a heart-rate notification arriving
while a request is outstanding resolves it with the decoded value and cancels
its timer, so that its timeout can never subsequently fire (firing it is a
no-op); (4) when a request's 5-second deadline elapses with no notification,
firing the timer rejects exactly that request with the timeout error, removes
it from the registry, and firing again is a no-op. -/
theorem requests_resolved_exactly_once (s : Svc) (h : Reachable s) :
    (∀ id, s.log.countP (fun e => e.1 == id) ≤ 1)
    ∧ (∀ id ∈ s.pending, (∃ t, (id, t) ∈ s.timers) ∧ ∀ e ∈ s.log, e.1 ≠ id)
    ∧ (∀ hr id, id ∈ s.pending →
        ((id, Outcome.resolved hr) ∈ (step s (.notify hr)).log
          ∧ step (step s (.notify hr)) (.fire id) = step s (.notify hr)))
    ∧ (∀ id t, (id, t) ∈ s.timers → t ≤ s.now →
        ((step s (.fire id)).log = s.log ++ [(id, .timedOut)]
          ∧ id ∉ (step s (.fire id)).pending
          ∧ step (step s (.fire id)) (.fire id) = step s (.fire id))) := by
  obtain ⟨hnd, htf, hplt, hllt, hpu, hso⟩ := reachable_svcInv s h
  refine ⟨hso, ?_, ?_, ?_⟩
  · intro id hid
    refine ⟨?_, hpu id hid⟩
    have hmem : id ∈ s.timers.map Prod.fst := htf ▸ hid
    rcases List.mem_map.mp hmem with ⟨t, ht, hfst⟩
    refine ⟨t.2, ?_⟩
    rw [← hfst]
    simpa using ht
  · intro hr id hid
    constructor
    · rw [step_notify]
      exact List.mem_append_right _ (List.mem_map_of_mem _ hid)
    · apply step_fire_dead
      rintro ⟨p, hp, h1, h2⟩
      rw [step_notify] at hp
      dsimp only at hp
      have hmem := List.of_mem_filter hp
      simp only [decide_eq_true_eq] at hmem
      exact hmem (h1 ▸ hid)
  · intro id t ht hle
    have hg : ∃ p ∈ s.timers, p.1 = id ∧ p.2 ≤ s.now := ⟨(id, t), ht, rfl, hle⟩
    rw [step_fire_live s id hg]
    refine ⟨rfl, ?_, ?_⟩
    · dsimp only
      exact hnd.not_mem_erase
    · apply step_fire_dead
      rintro ⟨p, hp, h1, h2⟩
      dsimp only at hp
      have hmem := List.of_mem_filter hp
      simp only [decide_eq_true_eq] at hmem
      exact hmem h1

/-- Claim C3 witness: at the concrete reachable state `svc1` (one pending
request, id 0), a notification with value 80 resolves request 0 and a
subsequent firing of its timeout is a no-op. -/
theorem requests_resolved_exactly_once_w :
    ((0, Outcome.resolved 80) ∈ (step svc1 (.notify 80)).log
      ∧ step (step svc1 (.notify 80)) (.fire 0) = step svc1 (.notify 80)) := by
  have h := requests_resolved_exactly_once svc1
    (Reachable.next _ _ (Reachable.next _ _ Reachable.init))
  exact h.2.2.1 80 0 (by decide)

/-- Claim C4: when a heart-rate notification is dispatched, every request
pending at arrival time is resolved with the same decoded bpm value, and the
pending-request list is empty immediately after the dispatch step. -/
theorem notify_resolves_all_pending (s : Svc) (hr : ℕ) :
    (step s (.notify hr)).pending = []
    ∧ ∀ id ∈ s.pending, (id, Outcome.resolved hr) ∈ (step s (.notify hr)).log := by
  rw [step_notify]
  exact ⟨rfl, fun id hid => List.mem_append_right _ (List.mem_map_of_mem _ hid)⟩

/-- Claim C4 witness: at `svc1`, a notification with value 72 empties the
registry and resolves request 0 with 72. -/
theorem notify_resolves_all_pending_w :
    (step svc1 (.notify 72)).pending = []
    ∧ (0, Outcome.resolved 72) ∈ (step svc1 (.notify 72)).log :=
  ⟨(notify_resolves_all_pending svc1 72).1,
    (notify_resolves_all_pending svc1 72).2 0 (by decide)⟩

/-- Claim C5: the payload `[0x11, 0x4B, 0x00, 0x00, 0x02, 0x00, 0x04]`
decodes to bpm 75 with exactly the intervals 500 ms and 1000 ms, in that
order. (Flags 0x11 select the 16-bit bpm path: the bpm is
`0x4B + 256 * 0x00 = 75`.) -/
theorem hr_decode_example_bytes :
    handleHeartRateValueChanged (some [0x11, 0x4B, 0x00, 0x00, 0x02, 0x00, 0x04])
      = .measured 75 [500, 1000] := by
  norm_num [handleHeartRateValueChanged, parseAfterBpm, rrIntervals]
  intro h
  exact absurd h (by decide)

/-- Claim C6: for every buffer containing the complete flags and bpm fields,
the decoder yields exactly the bpm the spec describes (bit 0 selecting 16-bit
little-endian at offset 1 versus 8-bit at offset 1) and, when bit 4 is set,
exactly the trailing 16-bit little-endian words — starting after a 2-byte
skip when bit 3 is set — each converted as value / 1024 * 1000 ms, parsing
continuing while at least 2 bytes remain; with bit 4 clear, no intervals. -/
theorem hr_decode_matches_spec (bytes : List ℕ) (flags : ℕ)
    (h0 : bytes[0]? = some flags)
    (hlen : (if flags &&& 1 ≠ 0 then 3 else 2) ≤ bytes.length) :
    handleHeartRateValueChanged (some bytes)
      = .measured (specBpm flags bytes)
          (if flags &&& 16 ≠ 0 then specIntervals bytes (rrStart flags) else []) := by
  by_cases hb : flags &&& 1 ≠ 0
  · rw [if_pos hb] at hlen
    have h1lt : 1 < bytes.length := by omega
    have h2lt : 2 < bytes.length := by omega
    have hb1 : bytes[1]? = some (bytes.getD 1 0) := by
      simp [List.getD_eq_getElem?_getD, List.getElem?_eq_getElem h1lt]
    have hb2 : bytes[2]? = some (bytes.getD 2 0) := by
      simp [List.getD_eq_getElem?_getD, List.getElem?_eq_getElem h2lt]
    simp only [handleHeartRateValueChanged, h0, if_pos hb, hb1, hb2]
    rw [parseAfterBpm_spec, specBpm, if_pos hb, rrStart, if_pos hb]
  · rw [if_neg hb] at hlen
    have h1lt : 1 < bytes.length := by omega
    have hb1 : bytes[1]? = some (bytes.getD 1 0) := by
      simp [List.getD_eq_getElem?_getD, List.getElem?_eq_getElem h1lt]
    simp only [handleHeartRateValueChanged, h0, if_neg hb, hb1]
    rw [parseAfterBpm_spec, specBpm, if_neg hb, rrStart, if_neg hb]

/-- Claim C6 witness: flags 0x01 (16-bit bpm, no intervals) on a three-byte
buffer decodes to the spec-side field values. -/
theorem hr_decode_matches_spec_w :
    handleHeartRateValueChanged (some [1, 75, 0])
      = .measured (specBpm 1 [1, 75, 0])
          (if 1 &&& 16 ≠ 0 then specIntervals [1, 75, 0] (rrStart 1) else []) :=
  hr_decode_matches_spec [1, 75, 0] 1 rfl (by decide)

/-- Claim C7: for every window state and pushed interval, the estimator emits
no statistic while the updated window holds fewer than 3 samples, and once it
holds at least 3 samples it emits exactly the rounded RMSSD of the window:
for samples `x[0..n-1]`, `round (sqrt ((∑ i in 1..n-1, (x i - x (i-1))^2) /
(n-1)))`, computed over the reals. -/
theorem handleRRInterval_rmssd (buf : List ℚ) (rr : ℚ) :
    Option.map (fun n : ℕ => (n : ℤ)) (handleRRInterval buf rr).2 =
      if 3 ≤ (slideWindow buf rr).length then
        some (round (Real.sqrt (
          ((∑ i in Finset.range ((slideWindow buf rr).length - 1),
            ((slideWindow buf rr).getD (i + 1) 0 - (slideWindow buf rr).getD i 0) ^ 2 : ℚ) : ℝ)
          / (((slideWindow buf rr).length : ℝ) - 1))))
      else none := by
  rw [handleRRInterval]
  set nb := slideWindow buf rr with hnb
  by_cases h : nb.length > 2
  · rw [if_pos h, if_pos (by omega)]
    have hlen : (2:ℚ) < (nb.length : ℚ) := by exact_mod_cast h
    have hden : (0:ℚ) ≤ (nb.length : ℚ) - 1 := by linarith
    simp only [Option.map_some']
    congr 1
    rw [jsRoundSqrt_eq_round_sqrt _ (div_nonneg (sumSquares_nonneg nb) hden)]
    congr 2
    rw [sumSquares_eq_finsetSum]
    push_cast
    ring
  · rw [if_neg h, if_neg (by omega)]
    rfl

/-- Claim C8: calling `requestHeartRate` while no device is connected rejects
immediately with the "Device not connected" error and leaves the
pending-request registry (and the timers) untouched. -/
theorem request_while_disconnected (s : Svc) (h : s.connected = false) :
    (step s .request).pending = s.pending
    ∧ (step s .request).timers = s.timers
    ∧ (step s .request).log = s.log ++ [(s.nextId, Outcome.notConnectedErr)] := by
  rw [step_request_disc s h]
  exact ⟨rfl, rfl, rfl⟩

/-- Claim C8 witness: a request on the freshly constructed (disconnected)
service is rejected with the not-connected error and registers nothing. -/
theorem request_while_disconnected_w :
    (step initSvc .request).pending = initSvc.pending
    ∧ (step initSvc .request).log
        = initSvc.log ++ [(initSvc.nextId, Outcome.notConnectedErr)] :=
  ⟨(request_while_disconnected initSvc rfl).1,
    (request_while_disconnected initSvc rfl).2.2⟩

/-- Claim C9: once the GATT session is established (platform capable, device
selected, GATT present, `gatt.connect()` succeeded), `connect()` resolves
with the peripheral's display name — or the fallback placeholder when the
device is unnamed — for every outcome of the battery read and of the
heart-rate subscription; neither failure aborts the connection. -/
theorem connect_ok_after_session (env : ConnectEnv) (dev : DeviceEnv)
    (h1 : env.bluetoothAvailable = true)
    (h2 : env.requestDevice = .ok (some dev))
    (h3 : dev.hasGatt = true) (h4 : dev.gattConnectOk = true) :
    connect env = .ok ((dev.name).getD ("Connected Device")) := by
  cases hb : env.batteryRead <;> cases hh : env.hrSubscribe <;>
    simp [connect, h1, h2, h3, h4, hb, hh]

/-- Claim C9 witness: an unnamed device whose battery read and heart-rate
subscription both fail still connects, resolving with the placeholder. -/
theorem connect_ok_after_session_w :
    connect envBestEffort = .ok ("Connected Device") :=
  connect_ok_after_session envBestEffort ⟨none, true, true⟩ rfl rfl rfl rfl

/-- Claim C10: the glucose observer is invoked exactly when the single
unsigned byte at fixed offset 10 exists and is nonzero, and then with exactly
that byte value; a zero byte (no reading) is never forwarded. -/
theorem glucose_forwarded_iff (bytes : List ℕ) (g : ℕ) :
    handleGlucoseValueChanged (some bytes) = .forwarded g
      ↔ (bytes[10]? = some g ∧ 0 < g) := by
  constructor
  · intro h
    simp only [handleGlucoseValueChanged] at h
    cases hb0 : bytes[0]? with
    | none => rw [hb0] at h; exact absurd h (by simp)
    | some f =>
        rw [hb0] at h
        dsimp only at h
        cases hb10 : bytes[10]? with
        | none => rw [hb10] at h; exact absurd h (by simp)
        | some x =>
            rw [hb10] at h
            dsimp only at h
            by_cases hx : 0 < x
            · rw [if_pos hx] at h
              injection h with hxg
              subst hxg
              exact ⟨rfl, hx⟩
            · rw [if_neg hx] at h
              exact absurd h (by simp)
  · rintro ⟨h10, hg⟩
    have hlt : 10 < bytes.length := by
      rcases List.getElem?_eq_some.mp h10 with ⟨hh, _⟩
      exact hh
    have h0lt : 0 < bytes.length := by omega
    simp only [handleGlucoseValueChanged, List.getElem?_eq_getElem h0lt, h10, if_pos hg]

/-- Claim C10 witness: an 11-byte notification whose byte at offset 10 is 112
forwards exactly 112 to the glucose observer. -/
theorem glucose_forwarded_iff_w :
    handleGlucoseValueChanged (some [0, 0, 0, 0, 0, 0, 0, 0, 0, 0, 112])
      = .forwarded 112 :=
  (glucose_forwarded_iff [0, 0, 0, 0, 0, 0, 0, 0, 0, 0, 112] 112).mpr ⟨rfl, by decide⟩

end Diabetes
